import Mathlib

/-!
Shallow embedding of `src/app.py` (a Flask clinical record-keeping app):
role-based login, patient creation with validation, clinical notes, biopsy
image upload, and a predict endpoint with a hardcoded fallback when the ML
artifacts are not loaded.

Modelling conventions:
* Database tables are association lists keyed by the string primary key
  (`Table α`); `Table.get` is `Model.query.get`, commits that only add a row
  append at the end, commits that mutate a fetched row map over the list.
* The Flask `session` is `Option Session` (`none` = unauthenticated).
* `request.form.get` / `dict.get` results are `Option String`; Python string
  interpolation of a possibly-`None` value is `optRepr`.
* Machine floats are modelled as `ℚ`; the only concrete numeric path (the
  `MODEL_LOADED = False` fallback, probability `0.85`) is exact in binary64
  at every operation the code performs on it, so `ℚ` agrees with the float
  semantics on that path.
* The loaded ML artifacts (model, scaler, selected features) are opaque to
  the code, so they are an abstract function `classify` in an `Env` record.
-/

/-! ### Character classes (ASCII model of Python's `re` classes) -/

def isAsciiUpperCh (c : Char) : Bool := 'A' ≤ c && c ≤ 'Z'

def isAsciiLowerCh (c : Char) : Bool := 'a' ≤ c && c ≤ 'z'

def isAsciiDigitCh (c : Char) : Bool := '0' ≤ c && c ≤ '9'

def isAsciiAlphaCh (c : Char) : Bool := isAsciiUpperCh c || isAsciiLowerCh c

def isAsciiAlnumCh (c : Char) : Bool := isAsciiAlphaCh c || isAsciiDigitCh c

/-- Python `\s` on ASCII input: space, tab, newline, carriage return,
vertical tab, form feed. -/
def isPySpaceCh (c : Char) : Bool :=
  c = ' ' || c = '\t' || c = '\n' || c = '\x0d' || c = '\x0b' || c = '\x0c'

/-- The fixed special-character set of the password rule in
`validate_registration`: `[!@#$%^&*(),.?\":{}|<>]`. -/
def isSpecialCh (c : Char) : Bool :=
  c = '!' || c = '@' || c = '#' || c = '$' || c = '%' || c = '^' || c = '&' ||
  c = '*' || c = '(' || c = ')' || c = ',' || c = '.' || c = '?' || c = '\"' ||
  c = ':' || c = '\x7b' || c = '\x7d' || c = '|' || c = '<' || c = '>'

/-! ### Python `re.match(r"^[X]+$", s)`.

In Python (without `re.MULTILINE`), `$` matches at the end of the string or
just before a single newline at the end of the string, so
`re.match(r"^[X]+$", s)` is truthy iff, after discarding at most one trailing
`'\n'`, the string is a nonempty run of `X` characters. -/

def dropTrailingNewline (cs : List Char) : List Char :=
  match cs.reverse with
  | '\n' :: rest => rest.reverse
  | _ => cs

/-- `re.match(r"^[p]+$", s)` for a character class `p`. -/
def reMatchPlusAnchored (p : Char → Bool) (s : String) : Bool :=
  let cs := dropTrailingNewline s.data
  ¬ cs.isEmpty && cs.all p

/-- The name rule: `re.match(r"^[A-Za-z\s]+$", name)`. -/
def nameValid (s : String) : Bool :=
  reMatchPlusAnchored (fun c => isAsciiAlphaCh c || isPySpaceCh c) s

/-- The patient-id rule: `re.match(r"^[A-Za-z0-9]+$", patient_id)`. -/
def idValid (s : String) : Bool :=
  reMatchPlusAnchored isAsciiAlnumCh s

/-- The password rule of `validate_registration`: length 8..16, at least one
uppercase letter (`re.search(r"[A-Z]")`), one digit (`re.search(r"\d")`) and
one character of the fixed special set. -/
def passwordValid (pwd : String) : Bool :=
  !(pwd.length < 8 || pwd.length > 16) &&
  pwd.data.any isAsciiUpperCh &&
  pwd.data.any isAsciiDigitCh &&
  pwd.data.any isSpecialCh

/-! ### Registration data and `validate_registration` -/

/-- The JSON body of `/create_patient`; each field may be absent
(`dict.get` returns `None`). Ages are kept opaque as `Option Int`. -/
structure RegData where
  patient_id : Option String
  password : Option String
  name : Option String
  age : Option Int
deriving DecidableEq

/-- `validate_registration(data)` from `src/app.py`: returns
`(ok, message)`, first failing rule wins. Absent fields default to `''`
(`data.get('name', '')` etc.). -/
def validate_registration (data : RegData) : Bool × String :=
  if ¬ nameValid (data.name.getD "") then
    (false, "Name must contain only alphabets.")
  else if ¬ idValid (data.patient_id.getD "") then
    (false, "Patient ID must contain only letters and numbers.")
  else
    let pwd := data.password.getD ""
    if pwd.length < 8 || pwd.length > 16 then
      (false, "Password must be 8-16 characters long.")
    else if ¬ pwd.data.any isAsciiUpperCh then
      (false, "Password must contain at least one capital letter.")
    else if ¬ pwd.data.any isAsciiDigitCh then
      (false, "Password must contain at least one number.")
    else if ¬ pwd.data.any isSpecialCh then
      (false, "Password must contain at least one special character.")
    else
      (true, "Valid")

/-! ### Python `float(...)` (decimal forms) -/

def digitsToNat (cs : List Char) : ℕ :=
  cs.foldl (fun a c => a * 10 + (c.toNat - 48)) 0

/-- Core of Python `float(str)` on the decimal grammar
`[sign] digits [. digits]` (at least one digit overall); other inputs fail.
Scientific notation and `inf`/`nan` are not modelled — no claim depends on
which strings parse, only on the parse-or-default structure. -/
def pyFloatCore (cs : List Char) : Option ℚ :=
  let signed : ℚ × List Char :=
    match cs with
    | '-' :: r => (-1, r)
    | '+' :: r => (1, r)
    | r => (1, r)
  let ip := signed.2.takeWhile isAsciiDigitCh
  let rest := signed.2.dropWhile isAsciiDigitCh
  match rest with
  | [] =>
      if ip.isEmpty then none
      else some (signed.1 * (digitsToNat ip : ℚ))
  | '.' :: frac =>
      if frac.all isAsciiDigitCh && ¬ (ip.isEmpty && frac.isEmpty) then
        some (signed.1 *
          ((digitsToNat ip : ℚ) + (digitsToNat frac : ℚ) / (10 : ℚ) ^ frac.length))
      else none
  | _ => none

/-- Python `float(val)` for a string value, `none` when it raises
`ValueError` (surrounding whitespace is stripped first, as Python does). -/
def pyFloat (s : String) : Option ℚ :=
  pyFloatCore (((s.data.dropWhile isPySpaceCh).reverse.dropWhile isPySpaceCh).reverse)

/-! ### Python `f"{x:.df}"` fixed-point formatting (round-half-even)

The formatter works on the exact fraction `q.num / q.den` with integer
arithmetic only (the same value as rounding `q * 10 ^ d` to an integer,
ties to even, as Python's fixed-point formatting does). -/

/-- Round `a / b` (with `b > 0`) to the nearest integer, ties to even. -/
def divRoundHalfEven (a b : ℤ) : ℤ :=
  let f := a.fdiv b
  let r := a.fmod b
  if 2 * r < b then f
  else if b < 2 * r then f + 1
  else if f % 2 = 0 then f else f + 1

def padZeros (d : ℕ) (n : ℕ) : String :=
  let s := toString n
  String.mk (List.replicate (d - s.length) '0') ++ s

/-- Digit string of the integer `n` scaled by `10 ^ d`: sign, integer part,
point, `d` fractional digits. -/
def renderScaled (d : ℕ) (n : ℤ) : String :=
  let sign := if n < 0 then "-" else ""
  let m := n.natAbs
  if d = 0 then sign ++ toString m
  else sign ++ toString (m / 10 ^ d) ++ "." ++ padZeros d (m % 10 ^ d)

/-- `f"{q:.df}"`: fixed-point with `d` fractional digits, ties to even. -/
def formatFixed (d : ℕ) (q : ℚ) : String :=
  renderScaled d (divRoundHalfEven (q.num * 10 ^ d) (q.den : ℤ))

/-- `f"{prob*100:.df}%"` as `predict` produces it: the probability scaled
to a percentage, fixed-point formatted, with a percent sign. -/
def formatPercent (d : ℕ) (q : ℚ) : String :=
  renderScaled d (divRoundHalfEven (q.num * 100 * 10 ^ d) (q.den : ℤ)) ++ "%"

/-! ### `werkzeug.utils.secure_filename` (ASCII/POSIX model)

`secure_filename` on POSIX with ASCII input: replace `os.sep` (`'/'`) by a
space, split on whitespace runs and re-join with `'_'`, delete every
character outside `[A-Za-z0-9_.-]`, then strip leading and trailing `'.'`
and `'_'`. -/

def sfKeepCh (c : Char) : Bool :=
  isAsciiAlnumCh c || c = '_' || c = '.' || c = '-'

def splitWsAux : List Char → List Char → List (List Char)
  | [], acc => if acc.isEmpty then [] else [acc.reverse]
  | c :: rest, acc =>
      if isPySpaceCh c then
        if acc.isEmpty then splitWsAux rest []
        else acc.reverse :: splitWsAux rest []
      else splitWsAux rest (c :: acc)

def stripDotUnderscore (cs : List Char) : List Char :=
  ((cs.dropWhile (fun c => c = '.' || c = '_')).reverse.dropWhile
    (fun c => c = '.' || c = '_')).reverse

def secure_filename (s : String) : String :=
  let cs := s.data.map (fun c => if c = '/' then ' ' else c)
  let joined := (List.intersperse ['_'] (splitWsAux cs [])).flatten
  String.mk (stripDotUnderscore (joined.filter sfKeepCh))

/-! ### Data model -/

/-- The `User` table row. -/
structure User where
  id : String
  password : String
  role : String
  name : String
deriving DecidableEq

/-- The `PatientData` table row. `notes`/`images` are stored in the source
as JSON-encoded lists of strings; since every access decodes, appends, and
re-encodes, they are modelled directly as `List String`. -/
structure PatientData where
  id : String
  name : String
  age : Option Int
  risk_status : String := "Pending"
  last_prob : String := "N/A"
  notes : List String := []
  images : List String := []
deriving DecidableEq

/-- The Flask session after a successful login: `user`, `role`, `name`. -/
structure Session where
  user : String
  role : String
  name : String
deriving DecidableEq

/-- A database table keyed by the string primary key. -/
abbrev Table (α : Type) : Type := List (String × α)

/-- `Model.query.get(k)`: the first row whose primary key is `k`. -/
def Table.get {α : Type} : Table α → String → Option α
  | [], _ => none
  | p :: t, k => if p.1 = k then some p.2 else Table.get t k

/-- `db.session.add(row); db.session.commit()` for a fresh row. -/
def Table.insert {α : Type} (t : Table α) (k : String) (v : α) : Table α :=
  t ++ [(k, v)]

/-- Mutating a fetched row in place and committing. -/
def Table.update {α : Type} (t : Table α) (k : String) (f : α → α) : Table α :=
  t.map (fun p => if p.1 = k then (p.1, f p.2) else p)

/-- Stored state: the two database tables plus the uploads directory,
modelled as the append-log of saved file names (`file.save(...)`). -/
structure DBState where
  users : Table User
  patients : Table PatientData
  files : List String
deriving DecidableEq

/-- Python `f"{x}"` for `x : Option String` (`None` prints as `"None"`). -/
def optRepr : Option String → String
  | none => "None"
  | some s => s

/-! ### Responses -/

/-- What `/dashboard` puts into `patients_dict` for one record (`last_prob`
is not exposed there). -/
structure PatientView where
  name : String
  age : Option Int
  risk_status : String
  notes : List String
  images : List String
deriving DecidableEq

/-- The observable response of a route: a redirect, a rendered page, or a
JSON body. -/
inductive Response where
  | redirect (endpoint : String)
  | loginPage (error : Option String)
  | dashboardPage (sess : Session) (patients : List (String × PatientView))
  | jsonStatus (status : String) (message : Option String)
  | jsonPredict (status : String) (prediction : String) (probability : String)
deriving DecidableEq

/-! ### ML environment -/

/-- The `feature_names` fallback of the `except` branch of the ML loading
block. -/
def fallback_feature_names : List String :=
  ["Age", "Smokes (years)", "Hormonal Contraceptives (years)", "IUD (years)",
   "STDs (number)"]

/-- Process-start ML state: `MODEL_LOADED`, the loaded `feature_names`, and
the composite imputer/scaler/selection/model path as one opaque function
from the feature vector to `(model.predict(...)[0], predict_proba(...)[0][1])`. -/
structure Env where
  modelLoaded : Bool
  feature_names : List String
  classify : List ℚ → ℤ × ℚ

/-! ### `/predict` -/

/-- The JSON body of `/predict`: the optional `patient_id_context` plus the
named feature fields (string values, as the form sends them). -/
structure PredictData where
  patient_id_context : Option String
  fields : Table String
deriving DecidableEq

/-- The feature-vector builder inside `predict`: for each expected feature
name in order, `val = data.get(feat, 0.0)`, then `float(val)` with the
`except` clause defaulting to `0.0`. Parameterised by the float parser. -/
def buildFeatures (parse : String → Option ℚ) (names : List String)
    (fields : Table String) : List ℚ :=
  names.map (fun feat =>
    match Table.get fields feat with
    | none => 0
    | some v => (parse v).getD 0)

/-- The fallback probability of the degraded mode, `prob = 0.85`, as the
exact rational `17 / 20` in lowest terms (given as a literal constructor so
that proofs can evaluate it; every operation the code performs on the float
`0.85` — `* 100`, format to 1 or 2 decimals — gives the same digits as on
the exact value). -/
def fallbackProb : ℚ := ⟨17, 20, by norm_num, by norm_num⟩

/-- `POST /predict`. No session check. Builds the feature vector, classifies
(or falls back to `(1, 0.85)` when the model is not loaded), then updates
`risk_status`/`last_prob` of the context patient when that row exists. -/
def predict (env : Env) (s : DBState) (data : PredictData) : Response × DBState :=
  let features := buildFeatures pyFloat env.feature_names data.fields
  let outcome := if env.modelLoaded then env.classify features
                 else ((1 : ℤ), fallbackProb)
  let result_text := if outcome.1 = 1 then "High Risk" else "Low Risk"
  let resp := Response.jsonPredict "success" result_text (formatPercent 2 outcome.2)
  match data.patient_id_context with
  | none => (resp, s)
  | some pid =>
      match Table.get s.patients pid with
      | none => (resp, s)
      | some _ =>
          let upd : PatientData → PatientData := fun p =>
            { p with risk_status := result_text,
                     last_prob := formatPercent 1 outcome.2 }
          (resp, { s with patients := Table.update s.patients pid upd })

/-! ### Other routes -/

/-- `POST /login`: fetch the user by id; on a password match set
`session['user'|'role'|'name']` and redirect to the dashboard, else
re-render the login page. A failed login leaves the session as it was. -/
def login (s : DBState) (sess : Option Session) (username password : Option String) :
    Response × Option Session × DBState :=
  match username.bind (Table.get s.users) with
  | some u =>
      if password = some u.password then
        (Response.redirect "dashboard", some ⟨u.id, u.role, u.name⟩, s)
      else (Response.loginPage (some "Invalid Credentials"), sess, s)
  | none => (Response.loginPage (some "Invalid Credentials"), sess, s)

/-- The record list `/dashboard` renders: all patients, or only the rows
whose id equals the session user for a patient-role caller
(`PatientData.query.filter_by(id=session['user'])`). -/
def dashboardRecords (ss : Session) (s : DBState) : List (String × PatientData) :=
  if ss.role = "patient" then s.patients.filter (fun p => p.1 = ss.user)
  else s.patients

/-- `GET /dashboard`: redirect to login when unauthenticated, else render
the (possibly scoped) record list. Reads only. -/
def dashboard (sess : Option Session) (s : DBState) : Response × DBState :=
  match sess with
  | none => (Response.redirect "login_page", s)
  | some ss =>
      (Response.dashboardPage ss ((dashboardRecords ss s).map
        (fun p => (p.1, ⟨p.2.name, p.2.age, p.2.risk_status, p.2.notes, p.2.images⟩))), s)

/-- `POST /create_patient`: role gate (`admin`/`doctor`), strict validation,
duplicate check against the `User` table, then the two paired inserts in one
commit. A duplicate primary key in `PatientData` alone would make the commit
raise into the `except` branch, returning the exception text with no state
change. Validation guarantees `patient_id`/`password`/`name` are present and
nonempty on the insert path, so the `.getD ""` defaults are never observed
there. -/
def create_patient (sess : Option Session) (s : DBState) (data : RegData) :
    Response × DBState :=
  if ¬ ((sess.map Session.role) = some "admin" ∨ (sess.map Session.role) = some "doctor") then
    (Response.jsonStatus "error" (some "Unauthorized"), s)
  else
    let v := validate_registration data
    if ¬ v.1 then (Response.jsonStatus "error" (some v.2), s)
    else
      let new_id := data.patient_id.getD ""
      if (Table.get s.users new_id).isSome then
        (Response.jsonStatus "error" (some "Patient ID already exists"), s)
      else if (Table.get s.patients new_id).isSome then
        (Response.jsonStatus "error" (some "IntegrityError"), s)
      else
        (Response.jsonStatus "success" (some "Patient Profile Created Successfully"),
         { s with
           users := Table.insert s.users new_id
             ⟨new_id, data.password.getD "", "patient", data.name.getD ""⟩,
           patients := Table.insert s.patients new_id
             { id := new_id, name := data.name.getD "", age := data.age } })

/-- `POST /add_note`: doctor-only; on an existing patient append one
timestamped, author-attributed line to the note log. `now` is the formatted
`datetime.datetime.now()` string. -/
def add_note (sess : Option Session) (s : DBState) (patient_id note : Option String)
    (now : String) : Response × DBState :=
  if ¬ ((sess.map Session.role) = some "doctor") then
    (Response.jsonStatus "error" none, s)
  else
    match patient_id with
    | none => (Response.jsonStatus "error" none, s)
    | some pid =>
        match Table.get s.patients pid with
        | none => (Response.jsonStatus "error" none, s)
        | some _ =>
            let entry := "[" ++ now ++ "] " ++ (sess.map Session.name).getD "" ++
              ": " ++ optRepr note
            let upd : PatientData → PatientData := fun p =>
              { p with notes := p.notes ++ [entry] }
            (Response.jsonStatus "success" none,
             { s with patients := Table.update s.patients pid upd })

/-- The uploaded file of `/upload_biopsy`; only its filename is observable
to the handler's control flow, the bytes are opaque. -/
structure UploadFile where
  filename : String
deriving DecidableEq

/-- `ALLOWED_EXTENSIONS`. -/
def allowed_extensions : List String := ["png", "jpg", "jpeg", "pdf"]

/-- `file.filename.rsplit('.', 1)[1].lower()`: the part after the last dot,
lowercased. -/
def lowerExt (filename : String) : String :=
  String.mk (((filename.data.reverse.takeWhile (fun c => c ≠ '.')).reverse).map
    Char.toLower)

/-- The extension gate of `upload_biopsy`:
`'.' in file.filename and file.filename.rsplit('.', 1)[1].lower() in ALLOWED_EXTENSIONS`. -/
def extAllowed (filename : String) : Bool :=
  filename.data.contains '.' && allowed_extensions.contains (lowerExt filename)

/-- `POST /upload_biopsy`: radiologist-only. A present, extension-accepted
file is saved to the uploads directory FIRST (`file.save`), and only then is
the patient row fetched; the image-log append and the success status happen
only when the row exists. (A `FileStorage` is falsy iff its filename is
empty, and an accepted extension forces a nonempty filename, so the `if file`
truthiness test adds nothing beyond `file` being present.) -/
def upload_biopsy (sess : Option Session) (s : DBState) (file : Option UploadFile)
    (patient_id : Option String) : Response × DBState :=
  if ¬ ((sess.map Session.role) = some "radiologist") then
    (Response.jsonStatus "error" none, s)
  else
    match file with
    | none => (Response.jsonStatus "error" none, s)
    | some f =>
        if f.filename ≠ "" ∧ extAllowed f.filename = true then
          let filename := secure_filename (optRepr patient_id ++ "_" ++ f.filename)
          let s1 := { s with files := s.files ++ [filename] }
          match patient_id with
          | none => (Response.jsonStatus "error" none, s1)
          | some pid =>
              match Table.get s1.patients pid with
              | none => (Response.jsonStatus "error" none, s1)
              | some _ =>
                  let upd : PatientData → PatientData := fun p =>
                    { p with images := p.images ++ [filename] }
                  (Response.jsonStatus "success" none,
                   { s1 with patients := Table.update s1.patients pid upd })
        else (Response.jsonStatus "error" none, s)

/-- `GET /logout`: clear the session. -/
def logout (_sess : Option Session) (s : DBState) : Response × Option Session × DBState :=
  (Response.redirect "login_page", none, s)

/-! ### The router -/

/-- One request to the application. `now` on `add_note` is the wall-clock
timestamp string, an external input. -/
inductive Op where
  | login (username password : Option String)
  | dashboard
  | create_patient (data : RegData)
  | predict (data : PredictData)
  | add_note (patient_id note : Option String) (now : String)
  | upload_biopsy (file : Option UploadFile) (patient_id : Option String)
  | logout

/-- Dispatch one request against the session and stored state. -/
def run (env : Env) (op : Op) (sess : Option Session) (s : DBState) :
    Response × Option Session × DBState :=
  match op with
  | .login u p => login s sess u p
  | .dashboard => let r := dashboard sess s; (r.1, sess, r.2)
  | .create_patient data => let r := create_patient sess s data; (r.1, sess, r.2)
  | .predict data => let r := predict env s data; (r.1, sess, r.2)
  | .add_note pid note now => let r := add_note sess s pid note now; (r.1, sess, r.2)
  | .upload_biopsy f pid => let r := upload_biopsy sess s f pid; (r.1, sess, r.2)
  | .logout => logout sess s

/-- `run` restricted to the stored state. -/
def runState (env : Env) (op : Op) (sess : Option Session) (s : DBState) : DBState :=
  (run env op sess s).2.2

/-- The protected operations of the permission table (all but login/logout). -/
def Op.isProtected : Op → Bool
  | .dashboard => true
  | .create_patient _ => true
  | .predict _ => true
  | .add_note _ _ _ => true
  | .upload_biopsy _ _ => true
  | _ => false

def Op.isPredictOp : Op → Bool
  | .predict _ => true
  | _ => false

def Op.isAddNoteOp : Op → Bool
  | .add_note _ _ _ => true
  | _ => false

def Op.isUploadOp : Op → Bool
  | .upload_biopsy _ _ => true
  | _ => false

/-! ### Concrete sample data (used by witnesses and counterexamples) -/

/-- The seeded admin account of the initial-setup block. -/
def adminSess : Session := ⟨"admin1", "admin", "System Administrator"⟩

def doctorSess : Session := ⟨"doctor1", "doctor", "Dr. Saravana Kumar"⟩

def radSess : Session := ⟨"rad1", "radiologist", "Chief Radiologist"⟩

def patSessP1 : Session := ⟨"p1", "patient", "Jane Doe"⟩

def userAdmin : User := ⟨"admin1", "Admin@123", "admin", "System Administrator"⟩

def userDoctor : User := ⟨"doctor1", "Doctor@123", "doctor", "Dr. Saravana Kumar"⟩

def userRad : User := ⟨"rad1", "Rad@123", "radiologist", "Chief Radiologist"⟩

def userP1 : User := ⟨"p1", "Abcdef1!", "patient", "Jane Doe"⟩

def patientP1 : PatientData := { id := "p1", name := "Jane Doe", age := some 30 }

def patientP2 : PatientData :=
  { id := "p2", name := "Alice West", age := some 41, risk_status := "Low Risk",
    last_prob := "12.0%", notes := ["[2024-01-01 09:00] Dr. Saravana Kumar: stable"],
    images := ["p2_scan.png"] }

/-- Sample stored state: the three seed accounts plus two patients. -/
def sampleState : DBState :=
  { users := [("admin1", userAdmin), ("doctor1", userDoctor), ("rad1", userRad),
              ("p1", userP1),
              ("p2", ⟨"p2", "Zyxwvu9$", "patient", "Alice West"⟩)],
    patients := [("p1", patientP1), ("p2", patientP2)],
    files := ["p2_scan.png"] }

/-- An environment in degraded mode (`MODEL_LOADED = False`). -/
def envOff : Env :=
  { modelLoaded := false, feature_names := fallback_feature_names,
    classify := fun _ => (0, 0) }

/-- A registration body for a fresh patient `p3`. -/
def regP3 : RegData := ⟨some "p3", some "Abcdef1!", some "John Smith", some 52⟩

/-! ### Table lemmas -/

theorem Table.get_insert {α : Type} (t : Table α) (k : String) (v : α) (id : String) :
    Table.get (Table.insert t k v) id =
      match Table.get t id with
      | some w => some w
      | none => if id = k then some v else none := by
  induction t with
  | nil =>
      by_cases h : k = id
      · subst h; simp [Table.get, Table.insert]
      · have h' : ¬ (id = k) := fun hh => h hh.symm
        simp [Table.get, Table.insert, h, h']
  | cons hd tl ih =>
      by_cases h : hd.1 = id
      · simp [Table.get, Table.insert, h]
      · simpa [Table.get, Table.insert, h] using ih

theorem Table.get_update {α : Type} (t : Table α) (k : String) (f : α → α) (id : String) :
    Table.get (Table.update t k f) id =
      (Table.get t id).map (fun w => if id = k then f w else w) := by
  induction t with
  | nil => rfl
  | cons hd tl ih =>
      obtain ⟨a, w⟩ := hd
      by_cases hk : a = k
      · subst hk
        by_cases h : a = id
        · subst h; simp [Table.update, Table.get]
        · simpa [Table.update, Table.get, h] using ih
      · by_cases h : a = id
        · subst h
          simp [Table.update, Table.get, hk, fun hh : a = k => hk hh]
        · simpa [Table.update, Table.get, hk, h] using ih

/-- A row present before an insert is unchanged by it. -/
theorem Table.get_insert_of_get {α : Type} {t : Table α} {id : String} {v : α}
    (h : Table.get t id = some v) (k : String) (w : α) :
    Table.get (Table.insert t k w) id = some v := by
  rw [Table.get_insert, h]

/-- What a row looks like after an update commit. -/
theorem Table.get_update_of_get {α : Type} {t : Table α} {id : String} {v : α}
    (h : Table.get t id = some v) (k : String) (f : α → α) :
    Table.get (Table.update t k f) id = some (if id = k then f v else v) := by
  rw [Table.get_update, h, Option.map_some']

/-! ### Claim C3: degraded-mode predict -/

/-- C3: for every predict request with `MODEL_LOADED = False` whose
`patient_id_context` names an existing patient, the response is
`{status: success, prediction: "High Risk", probability: "85.00%"}` and the
stored record's `risk_status` becomes `"High Risk"` and `last_prob` becomes
`"85.0%"` (two decimal places in the response, one in the stored field). -/
theorem predict_fallback_result (env : Env) (s : DBState) (data : PredictData)
    (pid : String) (p : PatientData)
    (hml : env.modelLoaded = false)
    (hctx : data.patient_id_context = some pid)
    (hget : Table.get s.patients pid = some p) :
    (predict env s data).1 = Response.jsonPredict "success" "High Risk" "85.00%" ∧
    Table.get (predict env s data).2.patients pid =
      some { p with risk_status := "High Risk", last_prob := "85.0%" } := by
  have h2 : formatPercent 2 fallbackProb = "85.00%" := by decide
  have h1 : formatPercent 1 fallbackProb = "85.0%" := by decide
  simp only [predict, hml, hctx, hget, Bool.false_eq_true, if_false, if_pos rfl]
  constructor
  · simp [h2]
  · rw [Table.get_update_of_get hget, if_pos rfl]
    simp [h1]

/-- C3 witness: the degraded-mode predict on patient `p1` of `sampleState`. -/
theorem predict_fallback_result_witness :
    (predict envOff sampleState ⟨some "p1", []⟩).1 =
      Response.jsonPredict "success" "High Risk" "85.00%" ∧
    Table.get (predict envOff sampleState ⟨some "p1", []⟩).2.patients "p1" =
      some { patientP1 with risk_status := "High Risk", last_prob := "85.0%" } :=
  predict_fallback_result envOff sampleState ⟨some "p1", []⟩ "p1" patientP1
    rfl rfl (by decide)

/-! ### Claim C10: predict on a missing patient context -/

/-- C10: a predict request whose `patient_id_context` is absent or names no
existing record still answers `{status: success}` with a prediction and a
probability, and the stored state is completely unchanged. -/
theorem predict_missing_context (env : Env) (s : DBState) (data : PredictData)
    (hmiss : data.patient_id_context.bind (Table.get s.patients) = none) :
    (∃ rt pr, (predict env s data).1 = Response.jsonPredict "success" rt pr) ∧
    (predict env s data).2 = s := by
  cases hctx : data.patient_id_context with
  | none =>
      refine ⟨?_, ?_⟩
      · simp only [predict, hctx]
        exact ⟨_, _, rfl⟩
      · simp [predict, hctx]
  | some pid =>
      rw [hctx, Option.some_bind] at hmiss
      refine ⟨?_, ?_⟩
      · simp only [predict, hctx, hmiss]
        exact ⟨_, _, rfl⟩
      · simp [predict, hctx, hmiss]

/-- C10 witness: predict against the nonexistent id `p9`. -/
theorem predict_missing_context_witness :
    (∃ rt pr, (predict envOff sampleState ⟨some "p9", []⟩).1 =
      Response.jsonPredict "success" rt pr) ∧
    (predict envOff sampleState ⟨some "p9", []⟩).2 = sampleState :=
  predict_missing_context envOff sampleState ⟨some "p9", []⟩ (by decide)

/-! ### Claim C8: patient-scoped dashboard -/

/-- C8: a dashboard read by a patient-role session renders only records
whose id equals the session's own user id, whatever the record store holds. -/
theorem dashboard_patient_own_records_only (sess : Session) (s : DBState)
    (hrole : sess.role = "patient") :
    ∀ l, (dashboard (some sess) s).1 = Response.dashboardPage sess l →
      ∀ pr ∈ l, pr.1 = sess.user := by
  intro l hl pr hpr
  simp only [dashboard, Response.dashboardPage.injEq, true_and] at hl
  subst hl
  simp only [List.mem_map] at hpr
  obtain ⟨q, hq, hq2⟩ := hpr
  rw [dashboardRecords, if_pos hrole] at hq
  have := List.of_mem_filter hq
  simp only [decide_eq_true_eq] at this
  rw [← hq2]
  exact this

/-- C8 witness: patient `p1` reading the dashboard of `sampleState` sees the
single entry keyed by their own id. -/
theorem dashboard_patient_own_records_only_witness :
    ("p1", (⟨"Jane Doe", some 30, "Pending", [], []⟩ : PatientView)).1 =
      patSessP1.user :=
  dashboard_patient_own_records_only patSessP1 sampleState rfl
    [("p1", ⟨"Jane Doe", some 30, "Pending", [], []⟩)] (by decide)
    ("p1", ⟨"Jane Doe", some 30, "Pending", [], []⟩) (by decide)

/-! ### Claim C7: add_note on missing and existing ids -/

/-- C7: a doctor's add_note on a nonexistent id answers a failure status and
leaves everything unchanged; on an existing id it appends exactly one
timestamped, author-attributed line to that patient's note log and changes
nothing else (other rows, the row's other fields, users, files). -/
theorem add_note_missing_and_existing (sess : Session) (s : DBState) (pid : String)
    (note : Option String) (now : String)
    (hrole : sess.role = "doctor") :
    (Table.get s.patients pid = none →
      (add_note (some sess) s (some pid) note now).1 = Response.jsonStatus "error" none ∧
      (add_note (some sess) s (some pid) note now).2 = s) ∧
    (∀ p, Table.get s.patients pid = some p →
      (add_note (some sess) s (some pid) note now).1 = Response.jsonStatus "success" none ∧
      Table.get (add_note (some sess) s (some pid) note now).2.patients pid =
        some { p with notes := p.notes ++
          ["[" ++ now ++ "] " ++ sess.name ++ ": " ++ optRepr note] } ∧
      (∀ q, q ≠ pid →
        Table.get (add_note (some sess) s (some pid) note now).2.patients q =
          Table.get s.patients q) ∧
      (add_note (some sess) s (some pid) note now).2.users = s.users ∧
      (add_note (some sess) s (some pid) note now).2.files = s.files) := by
  constructor
  · intro hm
    constructor <;> simp [add_note, hrole, hm]
  · intro p hp
    have hred : add_note (some sess) s (some pid) note now =
        (Response.jsonStatus "success" none,
         { s with patients := Table.update s.patients pid (fun q =>
             { q with notes := q.notes ++
               ["[" ++ now ++ "] " ++ sess.name ++ ": " ++ optRepr note] }) }) := by
      simp [add_note, hrole, hp]
    rw [hred]
    refine ⟨rfl, ?_, ?_, rfl, rfl⟩
    · rw [Table.get_update_of_get hp, if_pos rfl]
    · intro q hq
      rw [Table.get_update]
      cases Table.get s.patients q <;> simp [hq]

/-- C7 witness: a doctor's note on the existing patient `p1`. -/
theorem add_note_missing_and_existing_witness :
    (add_note (some doctorSess) sampleState (some "p1") (some "follow up")
      "2024-02-02 10:00").1 = Response.jsonStatus "success" none ∧
    Table.get (add_note (some doctorSess) sampleState (some "p1") (some "follow up")
      "2024-02-02 10:00").2.patients "p1" =
      some { patientP1 with notes := patientP1.notes ++
        ["[" ++ "2024-02-02 10:00" ++ "] " ++ doctorSess.name ++ ": " ++
          optRepr (some "follow up")] } :=
  ⟨((add_note_missing_and_existing doctorSess sampleState "p1" (some "follow up")
      "2024-02-02 10:00" rfl).2 patientP1 (by decide)).1,
   ((add_note_missing_and_existing doctorSess sampleState "p1" (some "follow up")
      "2024-02-02 10:00" rfl).2 patientP1 (by decide)).2.1⟩

/-! ### Claim C6: upload_biopsy extension gate -/

/-- An accepted extension forces a nonempty filename. -/
theorem ne_empty_of_extAllowed {fn : String} (h : extAllowed fn = true) : fn ≠ "" := by
  intro he
  rw [he] at h
  exact absurd h (by decide)

/-- C6: for a radiologist, an absent file or a filename whose
lowercased last-dot extension is not accepted is rejected with a failure
status and no state change (`".JPG"` is accepted: `extAllowed` lowercases);
an accepted extension on an existing patient id saves the file under the
sanitized `id_filename` name and appends that name to the patient's image
log. -/
theorem upload_biopsy_extension_rules (sess : Session) (s : DBState)
    (hrole : sess.role = "radiologist") :
    extAllowed "scan.JPG" = true ∧
    (∀ pid, (upload_biopsy (some sess) s none pid).1 = Response.jsonStatus "error" none ∧
      (upload_biopsy (some sess) s none pid).2 = s) ∧
    (∀ f : UploadFile, extAllowed f.filename = false → ∀ pid,
      (upload_biopsy (some sess) s (some f) pid).1 = Response.jsonStatus "error" none ∧
      (upload_biopsy (some sess) s (some f) pid).2 = s) ∧
    (∀ f : UploadFile, ∀ pid p, extAllowed f.filename = true →
      Table.get s.patients pid = some p →
      (upload_biopsy (some sess) s (some f) (some pid)).1 =
        Response.jsonStatus "success" none ∧
      (upload_biopsy (some sess) s (some f) (some pid)).2.files =
        s.files ++ [secure_filename (pid ++ "_" ++ f.filename)] ∧
      Table.get (upload_biopsy (some sess) s (some f) (some pid)).2.patients pid =
        some { p with images := p.images ++
          [secure_filename (pid ++ "_" ++ f.filename)] }) := by
  refine ⟨by decide, ?_, ?_, ?_⟩
  · intro pid
    constructor <;> simp [upload_biopsy, hrole]
  · intro f hf pid
    have hcond : ¬ (f.filename ≠ "" ∧ extAllowed f.filename = true) := by
      rintro ⟨-, h2⟩
      rw [hf] at h2
      cases h2
    constructor <;> simp [upload_biopsy, hrole, hcond]
  · intro f pid p hf hp
    have hne := ne_empty_of_extAllowed hf
    have hred : upload_biopsy (some sess) s (some f) (some pid) =
        (Response.jsonStatus "success" none,
         { s with
           files := s.files ++ [secure_filename (pid ++ "_" ++ f.filename)],
           patients := Table.update s.patients pid (fun q =>
             { q with images := q.images ++
               [secure_filename (pid ++ "_" ++ f.filename)] }) }) := by
      simp [upload_biopsy, hrole, hne, hf, hp, optRepr]
    rw [hred]
    refine ⟨rfl, rfl, ?_⟩
    rw [Table.get_update_of_get hp, if_pos rfl]

/-- C6 witness: an uppercase `.JPG` upload for the existing patient `p1`. -/
theorem upload_biopsy_extension_rules_witness :
    (upload_biopsy (some radSess) sampleState (some ⟨"scan.JPG"⟩) (some "p1")).1 =
      Response.jsonStatus "success" none ∧
    (upload_biopsy (some radSess) sampleState (some ⟨"scan.JPG"⟩) (some "p1")).2.files =
      sampleState.files ++ [secure_filename ("p1" ++ "_" ++ "scan.JPG")] ∧
    Table.get (upload_biopsy (some radSess) sampleState (some ⟨"scan.JPG"⟩)
        (some "p1")).2.patients "p1" =
      some { patientP1 with images := patientP1.images ++
        [secure_filename ("p1" ++ "_" ++ "scan.JPG")] } :=
  (upload_biopsy_extension_rules radSess sampleState rfl).2.2.2 ⟨"scan.JPG"⟩ "p1"
    patientP1 (by decide) (by decide)

/-! ### Claim C5: upload_biopsy with an accepted file but missing patient -/

/-- C5 counterexample: a radiologist uploads `scan.png` for the nonexistent
id `p9`; the response is a failure and no image-log entry appears, but the
uploaded bytes ARE stored — the files log gains `p9_scan.png` because
`file.save` runs before the patient lookup. This refutes the claim's
"no uploaded bytes are stored". -/
theorem upload_biopsy_missing_id_stores_bytes :
    (upload_biopsy (some radSess) sampleState (some ⟨"scan.png"⟩) (some "p9")).1 =
      Response.jsonStatus "error" none ∧
    (upload_biopsy (some radSess) sampleState (some ⟨"scan.png"⟩) (some "p9")).2.files ≠
      sampleState.files ∧
    (upload_biopsy (some radSess) sampleState (some ⟨"scan.png"⟩) (some "p9")).2.files =
      sampleState.files ++ ["p9_scan.png"] := by
  decide

/-- C5 amended: on an accepted extension and a missing patient id the
operation returns a failure status, appends no image-log entry and leaves
both database tables unchanged, but the uploaded bytes are stored under the
sanitized name (the file is saved before the record lookup). -/
theorem upload_biopsy_missing_id_behavior (sess : Session) (s : DBState)
    (f : UploadFile) (pid : Option String)
    (hrole : sess.role = "radiologist")
    (hext : extAllowed f.filename = true)
    (hmiss : pid.bind (Table.get s.patients) = none) :
    (upload_biopsy (some sess) s (some f) pid).1 = Response.jsonStatus "error" none ∧
    (upload_biopsy (some sess) s (some f) pid).2.users = s.users ∧
    (upload_biopsy (some sess) s (some f) pid).2.patients = s.patients ∧
    (upload_biopsy (some sess) s (some f) pid).2.files =
      s.files ++ [secure_filename (optRepr pid ++ "_" ++ f.filename)] := by
  have hne := ne_empty_of_extAllowed hext
  cases pid with
  | none =>
      refine ⟨?_, ?_, ?_, ?_⟩ <;> simp [upload_biopsy, hrole, hne, hext, optRepr]
  | some pidv =>
      rw [Option.some_bind] at hmiss
      refine ⟨?_, ?_, ?_, ?_⟩ <;>
        simp [upload_biopsy, hrole, hne, hext, hmiss, optRepr]

/-- C5 witness for the amended statement: the `p9` upload of the
counterexample, through the general theorem. -/
theorem upload_biopsy_missing_id_behavior_witness :
    (upload_biopsy (some radSess) sampleState (some ⟨"scan.png"⟩) (some "p9")).1 =
      Response.jsonStatus "error" none ∧
    (upload_biopsy (some radSess) sampleState (some ⟨"scan.png"⟩) (some "p9")).2.users =
      sampleState.users ∧
    (upload_biopsy (some radSess) sampleState (some ⟨"scan.png"⟩) (some "p9")).2.patients =
      sampleState.patients ∧
    (upload_biopsy (some radSess) sampleState (some ⟨"scan.png"⟩) (some "p9")).2.files =
      sampleState.files ++ [secure_filename (optRepr (some "p9") ++ "_" ++ "scan.png")] :=
  upload_biopsy_missing_id_behavior radSess sampleState ⟨"scan.png"⟩ (some "p9")
    rfl (by decide) (by decide)

/-! ### Claim C2: unauthenticated requests -/

/-- C2 counterexample: an unauthenticated predict request is answered with
`{status: success}` — not a redirect to login and not an authorization
error — and it mutates the stored record of patient `p1` (`predict` performs
no session or role check before its state mutation). -/
theorem unauthenticated_predict_mutates :
    (run envOff (Op.predict ⟨some "p1", []⟩) none sampleState).1 =
      Response.jsonPredict "success" "High Risk" "85.00%" ∧
    runState envOff (Op.predict ⟨some "p1", []⟩) none sampleState ≠ sampleState := by
  decide

/-- The static permission table of the router: which sessions pass an
operation's guard. `predict` imposes no restriction; `login`/`logout` are
unguarded. -/
def Op.roleOk : Op → Option Session → Bool
  | .dashboard, sess => sess.isSome
  | .create_patient _, sess =>
      (sess.map Session.role = some "admin") ||
      (sess.map Session.role = some "doctor")
  | .add_note _ _ _, sess => sess.map Session.role = some "doctor"
  | .upload_biopsy _ _, sess => sess.map Session.role = some "radiologist"
  | _, _ => true

/-- C2 amended: for every protected operation EXCEPT predict (dashboard,
create_patient, add_note, upload_biopsy), an unauthenticated request leaves
the stored state unchanged and is answered with a redirect to login or an
error status, and more generally any request failing the operation's role
guard leaves the stored state unchanged (the role check precedes every
mutation); predict imposes no authentication check at all and can mutate
state for unauthenticated callers. -/
theorem unauthenticated_non_predict_no_mutation (env : Env) (op : Op) (s : DBState)
    (hp : op.isProtected = true) (hnp : op.isPredictOp = false) :
    (runState env op none s = s ∧
      ((run env op none s).1 = Response.redirect "login_page" ∨
        ∃ m, (run env op none s).1 = Response.jsonStatus "error" m)) ∧
    (∀ sess : Option Session, Op.roleOk op sess = false →
      runState env op sess s = s ∧
      ((run env op sess s).1 = Response.redirect "login_page" ∨
        ∃ m, (run env op sess s).1 = Response.jsonStatus "error" m)) := by
  have hgen : ∀ sess : Option Session, Op.roleOk op sess = false →
      runState env op sess s = s ∧
      ((run env op sess s).1 = Response.redirect "login_page" ∨
        ∃ m, (run env op sess s).1 = Response.jsonStatus "error" m) := by
    intro sess hrk
    cases op with
    | dashboard =>
        cases sess with
        | none => exact ⟨rfl, Or.inl rfl⟩
        | some ss => simp [Op.roleOk] at hrk
    | create_patient data =>
        simp only [Op.roleOk, Bool.or_eq_true, decide_eq_true_eq] at hrk
        rw [Bool.or_eq_false_iff] at hrk
        have hr1 : ¬ sess.map Session.role = some "admin" := by
          simpa using hrk.1
        have hr2 : ¬ sess.map Session.role = some "doctor" := by
          simpa using hrk.2
        refine ⟨?_, Or.inr ⟨some "Unauthorized", ?_⟩⟩ <;>
          simp [runState, run, create_patient, hr1, hr2]
    | add_note pid note now =>
        have hr : ¬ sess.map Session.role = some "doctor" := by
          simpa [Op.roleOk] using hrk
        refine ⟨?_, Or.inr ⟨none, ?_⟩⟩ <;> simp [runState, run, add_note, hr]
    | upload_biopsy f pid =>
        have hr : ¬ sess.map Session.role = some "radiologist" := by
          simpa [Op.roleOk] using hrk
        refine ⟨?_, Or.inr ⟨none, ?_⟩⟩ <;> simp [runState, run, upload_biopsy, hr]
    | predict data => simp [Op.isPredictOp] at hnp
    | login u p => simp [Op.isProtected] at hp
    | logout => simp [Op.isProtected] at hp
  refine ⟨hgen none ?_, hgen⟩
  cases op with
  | dashboard => rfl
  | create_patient data => rfl
  | add_note pid note now => rfl
  | upload_biopsy f pid => rfl
  | predict data => simp [Op.isPredictOp] at hnp
  | login u p => simp [Op.isProtected] at hp
  | logout => simp [Op.isProtected] at hp

/-- C2 amended witness: an unauthenticated create_patient attempt. -/
theorem unauthenticated_non_predict_no_mutation_witness :
    runState envOff (Op.create_patient regP3) none sampleState = sampleState ∧
    ((run envOff (Op.create_patient regP3) none sampleState).1 =
        Response.redirect "login_page" ∨
      ∃ m, (run envOff (Op.create_patient regP3) none sampleState).1 =
        Response.jsonStatus "error" m) :=
  (unauthenticated_non_predict_no_mutation envOff (Op.create_patient regP3)
    sampleState rfl rfl).1

/-! ### Claim C4: the feature-vector builder -/

/-- C4: for every input mapping, expected-name list and float parser, the
builder returns a vector of exactly the names' length, aligned to their
order, whose `i`-th entry is the parse of the value stored under the `i`-th
name, `0.0` when the name is absent, and `0.0` when the value does not
parse. (The builder is a total pure function: it never fails and has no
side effects.) -/
theorem buildFeatures_spec (parse : String → Option ℚ) (names : List String)
    (fields : Table String) :
    (buildFeatures parse names fields).length = names.length ∧
    (∀ (i : ℕ) (name : String), names[i]? = some name →
      (Table.get fields name = none →
        (buildFeatures parse names fields)[i]? = some 0) ∧
      (∀ v, Table.get fields name = some v → parse v = none →
        (buildFeatures parse names fields)[i]? = some 0) ∧
      (∀ v q, Table.get fields name = some v → parse v = some q →
        (buildFeatures parse names fields)[i]? = some q)) := by
  refine ⟨by simp [buildFeatures], ?_⟩
  intro i name hi
  refine ⟨fun hn => ?_, fun v hv hp => ?_, fun v q hv hp => ?_⟩
  · simp [buildFeatures, List.getElem?_map, hi, hn]
  · simp [buildFeatures, List.getElem?_map, hi, hv, hp]
  · simp [buildFeatures, List.getElem?_map, hi, hv, hp]

/-- C4 witness: the fallback feature-name list against a mapping holding one
unparseable value; entry 0 (`Age`, value `"thirty"`) and entry 1 (absent)
default to `0`, and the vector has length 5. -/
theorem buildFeatures_spec_witness :
    (buildFeatures pyFloat fallback_feature_names [("Age", "thirty")]).length =
      fallback_feature_names.length ∧
    (buildFeatures pyFloat fallback_feature_names [("Age", "thirty")])[0]? = some 0 ∧
    (buildFeatures pyFloat fallback_feature_names [("Age", "thirty")])[1]? = some 0 :=
  ⟨(buildFeatures_spec pyFloat fallback_feature_names [("Age", "thirty")]).1,
   ((buildFeatures_spec pyFloat fallback_feature_names [("Age", "thirty")]).2 0 "Age"
      rfl).2.1 "thirty" rfl (by decide),
   ((buildFeatures_spec pyFloat fallback_feature_names [("Age", "thirty")]).2 1
      "Smokes (years)" rfl).1 (by decide)⟩

/-! ### Claim C1: create_patient validation and duplicate rules -/

/-- The success/failure bit of `validate_registration` is exactly the
conjunction of the three field rules. -/
theorem validate_registration_fst (data : RegData) :
    (validate_registration data).1 =
      (nameValid (data.name.getD "") && idValid (data.patient_id.getD "") &&
       passwordValid (data.password.getD "")) := by
  simp only [validate_registration, passwordValid]
  by_cases h1 : nameValid (data.name.getD "") = true
  case neg =>
    rw [if_pos h1]
    simp only [Bool.not_eq_true] at h1
    simp [h1]
  rw [if_neg (not_not_intro h1)]
  by_cases h2 : idValid (data.patient_id.getD "") = true
  case neg =>
    rw [if_pos h2]
    simp only [Bool.not_eq_true] at h2
    simp [h2]
  rw [if_neg (not_not_intro h2)]
  by_cases h3 : (decide ((data.password.getD "").length < 8) ||
      decide ((data.password.getD "").length > 16)) = true
  case pos =>
    rw [if_pos h3]
    simp only [Bool.or_eq_true, decide_eq_true_eq] at h3
    rcases h3 with h | h <;> simp [h]
  rw [if_neg h3]
  simp only [Bool.or_eq_true, decide_eq_true_eq, not_or] at h3
  by_cases h4 : (data.password.getD "").data.any isAsciiUpperCh = true
  case neg =>
    rw [if_pos (by simpa using h4)]
    simp only [Bool.not_eq_true] at h4
    simp [h4]
  rw [if_neg (by simpa using h4)]
  by_cases h5 : (data.password.getD "").data.any isAsciiDigitCh = true
  case neg =>
    rw [if_pos (by simpa using h5)]
    simp only [Bool.not_eq_true] at h5
    simp [h5]
  rw [if_neg (by simpa using h5)]
  by_cases h6 : (data.password.getD "").data.any isSpecialCh = true
  case neg =>
    rw [if_pos (by simpa using h6)]
    simp only [Bool.not_eq_true] at h6
    simp [h6]
  rw [if_neg (by simpa using h6)]
  simp [h1, h2, h3.1, h3.2, h4, h5, h6]
/-- C1: for an authenticated admin/doctor caller (over any state whose
patient rows all have identity rows), create_patient succeeds — answering
the success message and inserting a paired `User` row with role `patient`
and a `PatientData` row — iff the name matches `^[A-Za-z\s]+$`, the
patient_id matches `^[A-Za-z0-9]+$`, the password satisfies the complexity
rule, and the id is not already in the `User` table; with valid fields but
a duplicate id it answers `'Patient ID already exists'`; and the status
never depends on the `age` field. -/
theorem create_patient_success_characterization (sess : Session) (s : DBState)
    (data : RegData)
    (hrole : sess.role = "admin" ∨ sess.role = "doctor")
    (hwf : ∀ id, (Table.get s.patients id).isSome = true →
      (Table.get s.users id).isSome = true) :
    ((create_patient (some sess) s data).1 =
        Response.jsonStatus "success" (some "Patient Profile Created Successfully") ↔
      (nameValid (data.name.getD "") = true ∧
       idValid (data.patient_id.getD "") = true ∧
       passwordValid (data.password.getD "") = true ∧
       Table.get s.users (data.patient_id.getD "") = none)) ∧
    ((validate_registration data).1 = true →
      (Table.get s.users (data.patient_id.getD "")).isSome = true →
      (create_patient (some sess) s data).1 =
        Response.jsonStatus "error" (some "Patient ID already exists")) ∧
    ((create_patient (some sess) s data).1 =
        Response.jsonStatus "success" (some "Patient Profile Created Successfully") →
      Table.get (create_patient (some sess) s data).2.users (data.patient_id.getD "") =
        some ⟨data.patient_id.getD "", data.password.getD "", "patient",
              data.name.getD ""⟩ ∧
      Table.get (create_patient (some sess) s data).2.patients
          (data.patient_id.getD "") =
        some { id := data.patient_id.getD "", name := data.name.getD "",
               age := data.age }) ∧
    (∀ a : Option Int,
      (create_patient (some sess) s { data with age := a }).1 =
      (create_patient (some sess) s data).1) := by
  have hfst := validate_registration_fst data
  have hgate : ¬ (¬ sess.role = "admin" ∧ ¬ sess.role = "doctor") := by
    rcases hrole with h | h <;> simp [h]
  by_cases hv : (validate_registration data).1 = true
  · have hnip : nameValid (data.name.getD "") = true ∧
        idValid (data.patient_id.getD "") = true ∧
        passwordValid (data.password.getD "") = true := by
      rw [hfst] at hv
      simpa [Bool.and_eq_true, and_assoc] using hv
    by_cases hu : Table.get s.users (data.patient_id.getD "") = none
    · have hpat : Table.get s.patients (data.patient_id.getD "") = none := by
        cases hq : Table.get s.patients (data.patient_id.getD "") with
        | none => rfl
        | some p =>
            have := hwf (data.patient_id.getD "") (by rw [hq]; rfl)
            rw [hu] at this
            cases this
      have hred : create_patient (some sess) s data =
          (Response.jsonStatus "success" (some "Patient Profile Created Successfully"),
           { s with
             users := Table.insert s.users (data.patient_id.getD "")
               ⟨data.patient_id.getD "", data.password.getD "", "patient",
                data.name.getD ""⟩,
             patients := Table.insert s.patients (data.patient_id.getD "")
               { id := data.patient_id.getD "", name := data.name.getD "",
                 age := data.age } }) := by
        simp [create_patient, hgate, hv, hu, hpat]
      refine ⟨?_, ?_, ?_, ?_⟩
      · rw [hred]
        simp [hnip.1, hnip.2.1, hnip.2.2, hu]
      · intro _ hdup
        rw [hu] at hdup
        cases hdup
      · intro _
        rw [hred]
        constructor
        · rw [Table.get_insert, hu]
          simp
        · rw [Table.get_insert, hpat]
          simp
      · intro a
        have hv' : (validate_registration { data with age := a }).1 = true := hv
        have hred' : (create_patient (some sess) s { data with age := a }).1 =
            Response.jsonStatus "success"
              (some "Patient Profile Created Successfully") := by
          simp [create_patient, hgate, hv', hu, hpat]
        rw [hred', hred]
    · have hus : (Table.get s.users (data.patient_id.getD "")).isSome = true :=
        Option.isSome_iff_ne_none.mpr hu
      have hdup : create_patient (some sess) s data =
          (Response.jsonStatus "error" (some "Patient ID already exists"), s) := by
        simp [create_patient, hgate, hv, hus]
      refine ⟨?_, ?_, ?_, ?_⟩
      · rw [hdup]
        simp only [Response.jsonStatus.injEq]
        constructor
        · rintro ⟨h, -⟩
          exact absurd h (by decide)
        · rintro ⟨-, -, -, hnone⟩
          exact absurd hnone hu
      · intro _ _
        rw [hdup]
      · intro hc
        rw [hdup] at hc
        simp at hc
      · intro a
        have hv' : (validate_registration { data with age := a }).1 = true := hv
        have hdup' : (create_patient (some sess) s { data with age := a }).1 =
            Response.jsonStatus "error" (some "Patient ID already exists") := by
          simp [create_patient, hgate, hv', hus]
        rw [hdup', hdup]
  · have hbad : create_patient (some sess) s data =
        (Response.jsonStatus "error" (some (validate_registration data).2), s) := by
      simp [create_patient, hgate, hv]
    have hnip : ¬ (nameValid (data.name.getD "") = true ∧
        idValid (data.patient_id.getD "") = true ∧
        passwordValid (data.password.getD "") = true) := by
      rw [hfst] at hv
      simpa [Bool.and_eq_true, and_assoc] using hv
    refine ⟨?_, ?_, ?_, ?_⟩
    · rw [hbad]
      simp only [Response.jsonStatus.injEq]
      constructor
      · rintro ⟨h, -⟩
        exact absurd h (by decide)
      · rintro ⟨ha, hb, hc, -⟩
        exact absurd ⟨ha, hb, hc⟩ hnip
    · intro hvv
      exact absurd hvv hv
    · intro hc
      rw [hbad] at hc
      simp at hc
    · intro a
      have hv' : ¬ ((validate_registration { data with age := a }).1 = true) := hv
      have hbad' : (create_patient (some sess) s { data with age := a }).1 =
          Response.jsonStatus "error"
            (some (validate_registration { data with age := a }).2) := by
        simp [create_patient, hgate, hv']
      rw [hbad', hbad]
      rfl

/-- C1 witness: the admin creates fresh patient `p3` in `sampleState`. -/
theorem create_patient_success_characterization_witness :
    ((create_patient (some adminSess) sampleState regP3).1 =
        Response.jsonStatus "success" (some "Patient Profile Created Successfully") ↔
      (nameValid (regP3.name.getD "") = true ∧
       idValid (regP3.patient_id.getD "") = true ∧
       passwordValid (regP3.password.getD "") = true ∧
       Table.get sampleState.users (regP3.patient_id.getD "") = none)) ∧
    ((validate_registration regP3).1 = true →
      (Table.get sampleState.users (regP3.patient_id.getD "")).isSome = true →
      (create_patient (some adminSess) sampleState regP3).1 =
        Response.jsonStatus "error" (some "Patient ID already exists")) ∧
    ((create_patient (some adminSess) sampleState regP3).1 =
        Response.jsonStatus "success" (some "Patient Profile Created Successfully") →
      Table.get (create_patient (some adminSess) sampleState regP3).2.users
          (regP3.patient_id.getD "") =
        some ⟨regP3.patient_id.getD "", regP3.password.getD "", "patient",
              regP3.name.getD ""⟩ ∧
      Table.get (create_patient (some adminSess) sampleState regP3).2.patients
          (regP3.patient_id.getD "") =
        some { id := regP3.patient_id.getD "", name := regP3.name.getD "",
               age := regP3.age }) ∧
    (∀ a : Option Int,
      (create_patient (some adminSess) sampleState { regP3 with age := a }).1 =
      (create_patient (some adminSess) sampleState regP3).1) :=
  create_patient_success_characterization adminSess sampleState regP3
    (Or.inl rfl)
    (by
      intro id h
      by_cases h1 : "p1" = id
      · subst h1; decide
      by_cases h2 : "p2" = id
      · subst h2; decide
      exfalso
      have hnone : Table.get sampleState.patients id = none := by
        simp [sampleState, Table.get, h1, h2]
      rw [hnone] at h
      simp at h)

/-! ### Claim C9: append-only / no-deletion invariants of every operation -/

/-- Helper: `login` never changes the stored state. -/
theorem login_preserves_state (s : DBState) (sess : Option Session)
    (u p : Option String) : (login s sess u p).2.2 = s := by
  unfold login
  cases u.bind (Table.get s.users) with
  | none => rfl
  | some usr => by_cases h : p = some usr.password <;> simp [h]

/-- Helper: `predict` never changes users or files. -/
theorem predict_users_files (env : Env) (s : DBState) (data : PredictData) :
    (predict env s data).2.users = s.users ∧ (predict env s data).2.files = s.files := by
  cases hc : data.patient_id_context with
  | none => simp [predict, hc]
  | some pid =>
      cases hg : Table.get s.patients pid with
      | none => simp [predict, hc, hg]
      | some q => simp [predict, hc, hg]

/-- Helper: the patient table after `predict` is unchanged or a single
risk/probability overwrite. -/
theorem predict_patients_char (env : Env) (s : DBState) (data : PredictData) :
    (predict env s data).2.patients = s.patients ∨
    ∃ pid rt pr, (predict env s data).2.patients =
      Table.update s.patients pid (fun p =>
        { p with risk_status := rt, last_prob := pr }) := by
  cases hc : data.patient_id_context with
  | none => exact Or.inl (by simp [predict, hc])
  | some pid =>
      cases hg : Table.get s.patients pid with
      | none => exact Or.inl (by simp [predict, hc, hg])
      | some q =>
          refine Or.inr ?_
          simp only [predict, hc, hg]
          exact ⟨pid, _, _, rfl⟩

/-- Helper: the state after `create_patient` is unchanged or extends both
tables with one fresh row each. -/
theorem create_patient_state_char (sess : Option Session) (s : DBState)
    (data : RegData) :
    (create_patient sess s data).2 = s ∨
    ∃ pid u0 p0, (create_patient sess s data).2 =
      { s with users := Table.insert s.users pid u0,
               patients := Table.insert s.patients pid p0 } := by
  simp only [create_patient]
  split_ifs <;> first
    | exact Or.inl rfl
    | exact Or.inr ⟨_, _, _, rfl⟩

/-- Helper: the state after `add_note` is unchanged or a single note
append on one row. -/
theorem add_note_state_char (sess : Option Session) (s : DBState)
    (pid note : Option String) (now : String) :
    (add_note sess s pid note now).2 = s ∨
    ∃ pidv e, (add_note sess s pid note now).2 =
      { s with patients := Table.update s.patients pidv (fun q =>
          { q with notes := q.notes ++ [e] }) } := by
  simp only [add_note]
  by_cases hr : (Option.map Session.role sess) = some "doctor"
  · rw [if_neg (not_not_intro hr)]
    cases pid with
    | none => exact Or.inl rfl
    | some pidv =>
        dsimp only
        cases hg : Table.get s.patients pidv with
        | none => exact Or.inl rfl
        | some p => exact Or.inr ⟨pidv, _, rfl⟩
  · rw [if_pos hr]
    exact Or.inl rfl

/-- Helper: the state after `upload_biopsy` is unchanged, gains only a saved
file, or gains a saved file plus a single image append on one row. -/
theorem upload_biopsy_state_char (sess : Option Session) (s : DBState)
    (file : Option UploadFile) (pid : Option String) :
    (upload_biopsy sess s file pid).2 = s ∨
    (∃ fn, (upload_biopsy sess s file pid).2 = { s with files := s.files ++ [fn] }) ∨
    (∃ pidv fn, (upload_biopsy sess s file pid).2 =
      { s with files := s.files ++ [fn],
               patients := Table.update s.patients pidv (fun q =>
                 { q with images := q.images ++ [fn] }) }) := by
  simp only [upload_biopsy]
  by_cases hr : (Option.map Session.role sess) = some "radiologist"
  · rw [if_neg (not_not_intro hr)]
    cases file with
    | none => exact Or.inl rfl
    | some f =>
        dsimp only
        by_cases hok : f.filename ≠ "" ∧ extAllowed f.filename = true
        · rw [if_pos hok]
          cases pid with
          | none => exact Or.inr (Or.inl ⟨_, rfl⟩)
          | some pidv =>
              dsimp only
              cases hg : Table.get s.patients pidv with
              | none => exact Or.inr (Or.inl ⟨_, rfl⟩)
              | some p => exact Or.inr (Or.inr ⟨pidv, _, rfl⟩)
        · rw [if_neg hok]
          exact Or.inl rfl
  · rw [if_pos hr]
    exact Or.inl rfl

/-- Helper: the trivial append-only facts for an unchanged state. -/
theorem append_only_refl (o : Op) (s : DBState) :
    (∀ id u, Table.get s.users id = some u → Table.get s.users id = some u) ∧
    (∀ id p, Table.get s.patients id = some p →
      ∃ q, Table.get s.patients id = some q ∧ q.id = p.id ∧ q.name = p.name ∧
        q.age = p.age ∧ (q.notes = p.notes ∨ ∃ e, q.notes = p.notes ++ [e]) ∧
        (q.images = p.images ∨ ∃ e, q.images = p.images ++ [e]) ∧
        (o.isPredictOp = false → q.risk_status = p.risk_status ∧
          q.last_prob = p.last_prob) ∧
        (o.isAddNoteOp = false → q.notes = p.notes) ∧
        (o.isUploadOp = false → q.images = p.images)) :=
  ⟨fun _ _ h => h, fun _ p hp =>
    ⟨p, hp, rfl, rfl, rfl, Or.inl rfl, Or.inl rfl, fun _ => ⟨rfl, rfl⟩,
     fun _ => rfl, fun _ => rfl⟩⟩

/-- C9: across every operation and every starting state, no `User` or
`PatientData` row is ever deleted (and `User` rows are never modified);
each surviving patient row keeps its id, name and age; its note and image
logs only grow by appending at the end; `risk_status`/`last_prob` change
only under predict; the note log changes only under add_note; and the image
log changes only under upload_biopsy. -/
theorem run_append_only (env : Env) (op : Op) (sess : Option Session) (s : DBState) :
    (∀ id u, Table.get s.users id = some u →
      Table.get (runState env op sess s).users id = some u) ∧
    (∀ id p, Table.get s.patients id = some p →
      ∃ q, Table.get (runState env op sess s).patients id = some q ∧
        q.id = p.id ∧ q.name = p.name ∧ q.age = p.age ∧
        (q.notes = p.notes ∨ ∃ e, q.notes = p.notes ++ [e]) ∧
        (q.images = p.images ∨ ∃ e, q.images = p.images ++ [e]) ∧
        (op.isPredictOp = false → q.risk_status = p.risk_status ∧
          q.last_prob = p.last_prob) ∧
        (op.isAddNoteOp = false → q.notes = p.notes) ∧
        (op.isUploadOp = false → q.images = p.images)) := by
  cases op with
  | login u p =>
      have hrun : runState env (Op.login u p) sess s = s :=
        login_preserves_state s sess u p
      rw [hrun]
      exact append_only_refl (Op.login u p) s
  | dashboard =>
      have hrun : runState env Op.dashboard sess s = s := by
        cases sess <;> rfl
      rw [hrun]
      exact append_only_refl Op.dashboard s
  | logout =>
      have hrun : runState env Op.logout sess s = s := rfl
      rw [hrun]
      exact append_only_refl Op.logout s
  | create_patient data =>
      have hrun : runState env (Op.create_patient data) sess s =
        (create_patient sess s data).2 := rfl
      rw [hrun]
      rcases create_patient_state_char sess s data with h | ⟨pid, u0, p0, h⟩
      · rw [h]
        exact append_only_refl (Op.create_patient data) s
      · rw [h]
        constructor
        · intro id u hu
          exact Table.get_insert_of_get hu pid u0
        · intro id p hp
          exact ⟨p, Table.get_insert_of_get hp pid p0, rfl, rfl, rfl,
            Or.inl rfl, Or.inl rfl, fun _ => ⟨rfl, rfl⟩, fun _ => rfl,
            fun _ => rfl⟩
  | predict data =>
      have hrun : runState env (Op.predict data) sess s =
        (predict env s data).2 := rfl
      rw [hrun]
      refine ⟨?_, ?_⟩
      · intro id u hu
        rw [(predict_users_files env s data).1]
        exact hu
      · intro id p hp
        rcases predict_patients_char env s data with h | ⟨pid, rt, pr, h⟩
        · rw [h]
          exact ((append_only_refl (Op.predict data) s).2 id p hp)
        · rw [h, Table.get_update_of_get hp]
          by_cases hid : id = pid
          · rw [if_pos hid]
            exact ⟨_, rfl, rfl, rfl, rfl, Or.inl rfl, Or.inl rfl,
              fun hq => Bool.noConfusion hq, fun _ => rfl, fun _ => rfl⟩
          · rw [if_neg hid]
            exact ⟨p, rfl, rfl, rfl, rfl, Or.inl rfl, Or.inl rfl,
              fun _ => ⟨rfl, rfl⟩, fun _ => rfl, fun _ => rfl⟩
  | add_note pid note now =>
      have hrun : runState env (Op.add_note pid note now) sess s =
        (add_note sess s pid note now).2 := rfl
      rw [hrun]
      rcases add_note_state_char sess s pid note now with h | ⟨pidv, e, h⟩
      · rw [h]
        exact append_only_refl (Op.add_note pid note now) s
      · rw [h]
        refine ⟨fun id u hu => hu, ?_⟩
        intro id p hp
        rw [Table.get_update_of_get hp]
        by_cases hid : id = pidv
        · rw [if_pos hid]
          exact ⟨_, rfl, rfl, rfl, rfl, Or.inr ⟨e, rfl⟩, Or.inl rfl,
            fun _ => ⟨rfl, rfl⟩, fun hq => Bool.noConfusion hq, fun _ => rfl⟩
        · rw [if_neg hid]
          exact ⟨p, rfl, rfl, rfl, rfl, Or.inl rfl, Or.inl rfl,
            fun _ => ⟨rfl, rfl⟩, fun _ => rfl, fun _ => rfl⟩
  | upload_biopsy file pid =>
      have hrun : runState env (Op.upload_biopsy file pid) sess s =
        (upload_biopsy sess s file pid).2 := rfl
      rw [hrun]
      rcases upload_biopsy_state_char sess s file pid with h | ⟨fn, h⟩ | ⟨pidv, fn, h⟩
      · rw [h]
        exact append_only_refl (Op.upload_biopsy file pid) s
      · rw [h]
        exact append_only_refl (Op.upload_biopsy file pid) s
      · rw [h]
        refine ⟨fun id u hu => hu, ?_⟩
        intro id p hp
        rw [Table.get_update_of_get hp]
        by_cases hid : id = pidv
        · rw [if_pos hid]
          exact ⟨_, rfl, rfl, rfl, rfl, Or.inl rfl, Or.inr ⟨fn, rfl⟩,
            fun _ => ⟨rfl, rfl⟩, fun _ => rfl, fun hq => Bool.noConfusion hq⟩
        · rw [if_neg hid]
          exact ⟨p, rfl, rfl, rfl, rfl, Or.inl rfl, Or.inl rfl,
            fun _ => ⟨rfl, rfl⟩, fun _ => rfl, fun _ => rfl⟩

/-- C9 witness: a doctor's add_note on `p1` in `sampleState`, through the
general invariant (the stored admin row survives, and the `p1` row keeps its
fields with the note log equal or extended by one entry). -/
theorem run_append_only_witness :
    Table.get (runState envOff (Op.add_note (some "p1") (some "n") "t")
        (some doctorSess) sampleState).users "admin1" = some userAdmin ∧
    (∃ q, Table.get (runState envOff (Op.add_note (some "p1") (some "n") "t")
        (some doctorSess) sampleState).patients "p1" = some q ∧
      q.id = patientP1.id ∧ q.name = patientP1.name ∧ q.age = patientP1.age ∧
      (q.notes = patientP1.notes ∨ ∃ e, q.notes = patientP1.notes ++ [e]) ∧
      (q.images = patientP1.images ∨ ∃ e, q.images = patientP1.images ++ [e]) ∧
      ((Op.add_note (some "p1") (some "n") "t").isPredictOp = false →
        q.risk_status = patientP1.risk_status ∧ q.last_prob = patientP1.last_prob) ∧
      ((Op.add_note (some "p1") (some "n") "t").isAddNoteOp = false →
        q.notes = patientP1.notes) ∧
      ((Op.add_note (some "p1") (some "n") "t").isUploadOp = false →
        q.images = patientP1.images)) :=
  ⟨(run_append_only envOff (Op.add_note (some "p1") (some "n") "t")
      (some doctorSess) sampleState).1 "admin1" userAdmin (by decide),
   (run_append_only envOff (Op.add_note (some "p1") (some "n") "t")
      (some doctorSess) sampleState).2 "p1" patientP1 (by decide)⟩
